import Mathlib

/-!
Verification of the `discord-self-lite` REST scheduler (`RestManager`) and
gateway connection (`DiscordWebSocket`) against their specification.

The definitions below are a shallow embedding of the JavaScript source:

* `Rest.makeRequestGo` embeds the `while (attempt < maxRetries)` loop of
  `RestManager.makeRequest`.  Network interaction is modelled by a stream
  `Nat → Outcome` giving the outcome of the k-th `fetch` call (every loop
  iteration performs exactly one fetch and, unless it exits, increments
  `attempt` by one, so iteration at `attempt = a` consumes outcome `a`).
  The loop guard `attempt < maxRetries` is carried as the structurally
  decreasing argument `rem = maxRetries - attempt`, so `rem = 0` is exactly
  the guard failing; `Rest.makeRequestFrom` restores the source's view.
  Side effects (sleeps, the global-rate-limit write, header-driven bucket
  updates) are recorded as an event trace.
* `Rest.processQueue` embeds `RestManager.processQueue`: the single-flight
  FIFO loop with its global and per-route gates.  JavaScript runs the loop
  on a single event-loop thread and the `processingQueue` flag prevents a
  second loop instance, so the loop is faithfully a sequential recursion
  over the queued requests.
* `Rest.getRouteKey` embeds `RestManager.getRouteKey`; `Rest.normGo` is a
  character-level scanner with the exact semantics of the global JavaScript
  regex replace of `\/\d+` by the placeholder (the second `.replace` in the
  source maps its pattern to itself and is the identity, so it is not
  represented).
* The `WS` namespace embeds the `DiscordWebSocket` handlers: `handleMessage`,
  `handleDispatch`, the `close` listener installed by `connect`, `reconnect`,
  `send` and the heartbeat tick.  Emitted client events and scheduled timer
  callbacks are recorded in a trace.
-/

namespace Rest

/-- Result of `response.json()` on a response body: `message` is the `message`
field of the parsed object (`none` when the field is absent). -/
structure JBody where
  message : Option String
deriving DecidableEq

/-- The rate-limit headers of a response, when both `x-ratelimit-remaining`
and `x-ratelimit-reset` parse to numbers (`updateRateLimits` ignores the
headers otherwise). `resetSec` is the reset timestamp in seconds, multiplied
by 1000 at store time as in the source. -/
structure RLHeader where
  remaining : Int
  resetSec : Nat
  limit : Int
deriving DecidableEq

/-- An HTTP response as observed by `makeRequest`: status, the
`retry-after` header in seconds (read only on 429), the
`x-ratelimit-global` flag, the body parse result (`none` when
`response.json()` rejects), and the rate-limit headers. -/
structure HResp where
  status : Nat
  retryAfterSec : Nat
  isGlobal : Bool
  jsonBody : Option JBody
  rl : Option RLHeader
deriving DecidableEq

/-- Outcome of one `fetch` call: either the promise rejects with a
network-level error, or a response arrives. -/
inductive Outcome where
  | netErr (e : String)
  | resp (r : HResp)
deriving DecidableEq

/-- An error thrown out of `makeRequest`: a `DiscordAPIError` (message,
status, path — the fields set by its constructor) or a network-level error. -/
inductive MError where
  | api (msg : String) (status : Nat) (path : String)
  | net (e : String)
deriving DecidableEq

/-- What `makeRequest` does for its caller: return a parsed body, return
`null` (204), throw, or fall off the end of the `while` loop — in JavaScript
an `async` function that ends without `return` resolves with `undefined`. -/
inductive MRResult where
  | ok (body : Option JBody)
  | err (e : MError)
  | undef
deriving DecidableEq

/-- Observable events of the scheduler: `fetch k` is the k-th HTTP call of
one `makeRequest`, `sleep` a wait of the given milliseconds, `setGlobal ra`
the write `globalRateLimit = { reset: Date.now() + ra }`, `updRL` the
`updateRateLimits` call with the response headers, `globalWait`/`routeWait`
the gate waits of `processQueue`, and `start`/`finish` bracket the execution
of the i-th queued request (`finish` carries the `makeRequest` outcome the
caller promise is settled with). -/
inductive Ev where
  | fetch (k : Nat)
  | sleep (ms : Nat)
  | setGlobal (ra : Nat)
  | updRL (endpoint method : String) (h : Option RLHeader)
  | globalWait (ms : Nat)
  | routeWait (key : String) (ms : Nat)
  | start (i : Nat)
  | finish (i : Nat) (res : MRResult)
deriving DecidableEq

/-- `response.ok`: status in the inclusive range 200–299. -/
def statusOk (status : Nat) : Bool :=
  200 ≤ status && status ≤ 299

/-- `maxRetries` in `makeRequest`. -/
def maxRetries : Nat := 3

/-- The message argument of the `DiscordAPIError` constructed for a
non-success response: the `message` field of the parsed body; the
fixed fallback when `response.json()` rejects; the empty string when the
parsed body has no `message` field (`new Error(undefined)`). -/
def apiMessage (r : HResp) : String :=
  match r.jsonBody with
  | none => "Unknown error"
  | some b => b.message.getD ""

/-- The `while (attempt < maxRetries)` loop of `RestManager.makeRequest`,
at loop counter `attempt` with `rem` = number of loop iterations the guard
still permits (`maxRetries - attempt`; the caller `makeRequestFrom`
maintains this).  Every path through the body either returns, throws
(`err`), or increments `attempt` and retries; a thrown `DiscordAPIError`
(and a rejected `response.json()`) is caught by the surrounding `catch` and
retried with exponential backoff unless `attempt === maxRetries - 1`. -/
def makeRequestGo (path method : String) (out : Nat → Outcome) :
    Nat → Nat → MRResult × List Ev
  | _, 0 => (MRResult.undef, [])
  | attempt, rem + 1 =>
    match out attempt with
    | Outcome.netErr e =>
      -- `fetch` rejected: caught by the catch block.
      if attempt = maxRetries - 1 then
        (MRResult.err (MError.net e), [Ev.fetch attempt])
      else
        let r1 := makeRequestGo path method out (attempt + 1) rem
        (r1.1, Ev.fetch attempt :: Ev.sleep (2 ^ attempt * 1000) :: r1.2)
    | Outcome.resp r =>
      if r.status = 429 then
        let ra := r.retryAfterSec * 1000
        let pre := Ev.fetch attempt :: Ev.updRL path method r.rl ::
          (if r.isGlobal then [Ev.setGlobal ra] else []) ++ [Ev.sleep ra]
        let r1 := makeRequestGo path method out (attempt + 1) rem
        (r1.1, pre ++ r1.2)
      else if statusOk r.status then
        if r.status = 204 then
          (MRResult.ok none, [Ev.fetch attempt, Ev.updRL path method r.rl])
        else
          match r.jsonBody with
          | some b =>
            (MRResult.ok (some b), [Ev.fetch attempt, Ev.updRL path method r.rl])
          | none =>
            -- `response.json()` rejected on a success body: caught, retried.
            if attempt = maxRetries - 1 then
              (MRResult.err (MError.net "invalid json"),
                [Ev.fetch attempt, Ev.updRL path method r.rl])
            else
              let r1 := makeRequestGo path method out (attempt + 1) rem
              (r1.1, Ev.fetch attempt :: Ev.updRL path method r.rl ::
                Ev.sleep (2 ^ attempt * 1000) :: r1.2)
      else
        -- `throw new DiscordAPIError(error.message, response.status, endpoint)`
        -- is raised inside the try block, so the catch block receives it.
        let e := MError.api (apiMessage r) r.status path
        if attempt = maxRetries - 1 then
          (MRResult.err e, [Ev.fetch attempt, Ev.updRL path method r.rl])
        else
          let r1 := makeRequestGo path method out (attempt + 1) rem
          (r1.1, Ev.fetch attempt :: Ev.updRL path method r.rl ::
            Ev.sleep (2 ^ attempt * 1000) :: r1.2)

/-- The `makeRequest` loop entered at loop counter `attempt`: the guard
allows `maxRetries - attempt` more iterations. -/
def makeRequestFrom (path method : String) (out : Nat → Outcome)
    (attempt : Nat) : MRResult × List Ev :=
  makeRequestGo path method out attempt (maxRetries - attempt)

/-- `RestManager.makeRequest` starts the loop at `attempt = 0`. -/
def makeRequest (path method : String) (out : Nat → Outcome) :
    MRResult × List Ev :=
  makeRequestFrom path method out 0

/-- Number of `fetch` events in a trace: how many HTTP calls were made. -/
def countFetch : List Ev → Nat
  | [] => 0
  | Ev.fetch _ :: t => countFetch t + 1
  | _ :: t => countFetch t

/-- Whether the first character of a list is a decimal digit (JavaScript
`\d` is exactly 0–9, matching `Char.isDigit`). -/
def firstIsDigit : List Char → Bool
  | [] => false
  | c :: _ => c.isDigit

/-- The opening brace character of the placeholder. -/
def lb : Char := Char.ofNat 123

/-- The closing brace character of the placeholder. -/
def rb : Char := Char.ofNat 125

/-- Left-to-right global replace of the JavaScript regex `\/\d+` by the
`/{id}` placeholder, as a scanner.  `run = true` means the scanner is inside
the maximal digit run of a match already replaced, whose remaining digits
are consumed without output.  Otherwise, a `/` followed by at least one
digit starts a match: the placeholder is emitted and the digit run is
consumed; any other character is copied verbatim. -/
def normGo (run : Bool) : List Char → List Char
  | [] => []
  | c :: cs =>
    if run && c.isDigit then
      normGo true cs
    else if c = '/' && firstIsDigit cs then
      '/' :: lb :: 'i' :: 'd' :: rb :: normGo true cs
    else
      c :: normGo false cs

/-- `endpoint.replace(/\/\d+/g, "/{id}")`. -/
def normalizeCore (l : List Char) : List Char :=
  normGo false l

/-- `method.toUpperCase()` (ASCII methods only appear). -/
def upperChars (l : List Char) : List Char :=
  l.map Char.toUpper

/-- `RestManager.getRouteKey`.  The source applies two `.replace` calls; the
second replaces `/channels/{id}/messages/{id}` by itself and is the
identity, so only the first is represented. -/
def getRouteKey (endpoint method : String) : String :=
  String.mk (upperChars method.data ++ ':' :: normalizeCore endpoint.data)

/-- Split a character list at every `/` (the separators are dropped, empty
segments kept), like `String.splitOn "/"`. -/
def splitSlash : List Char → List (List Char)
  | [] => [[]]
  | '/' :: cs => [] :: splitSlash cs
  | c :: cs =>
    match splitSlash cs with
    | [] => [[c]]
    | s :: ss => (c :: s) :: ss

/-- Join segments with `/` between them, inverse of `splitSlash`. -/
def joinSlash : List (List Char) → List Char
  | [] => []
  | [s] => s
  | s :: ss => s ++ '/' :: joinSlash ss

/-- Modelled from the spec (for comparison with `getRouteKey`): a path
segment is replaced by the placeholder exactly when it is a pure numeric
identifier; anything else is left unchanged. -/
def specNormalizeSeg (seg : List Char) : List Char :=
  if seg ≠ [] && seg.all Char.isDigit then [lb, 'i', 'd', rb] else seg

/-- Modelled from the spec: the route key as the spec words it — the
uppercased method joined with the endpoint path in which each pure-numeric
path segment is replaced by the placeholder and nothing else is altered. -/
def specRouteKey (endpoint method : String) : String :=
  String.mk (upperChars method.data ++ ':' ::
    joinSlash ((splitSlash endpoint.data).map specNormalizeSeg))

/-- An endpoint path built from slash-prefixed segments, as every endpoint
produced by this library is (`/guilds/123`, `/channels/123/messages`, ...). -/
def pathOf (segs : List String) : String :=
  String.mk (segs.flatMap fun s => '/' :: s.data)

/-- A rate-limit bucket as stored in `this.rateLimits`:
`{ remaining, reset, limit, updatedAt }` with `reset` in milliseconds. -/
structure Bucket where
  remaining : Int
  reset : Nat
  limit : Int
  updatedAt : Nat
deriving DecidableEq

/-- Mutable state of a `RestManager` relevant to queue processing, with
`now` the model clock (`Date.now()`), advanced by each wait. -/
structure RMState where
  rateLimits : List (String × Bucket)
  globalRateLimit : Option Nat
  now : Nat
deriving DecidableEq

/-- `Map.get` on the bucket map. -/
def lookupBucket (m : List (String × Bucket)) (key : String) : Option Bucket :=
  (m.find? fun kv => kv.1 = key).map Prod.snd

/-- `Map.set` on the bucket map: overwrite the entry for `key`. -/
def setBucket (m : List (String × Bucket)) (key : String) (b : Bucket) :
    List (String × Bucket) :=
  if (m.find? fun kv => kv.1 = key).isSome then
    m.map fun kv => if kv.1 = key then (key, b) else kv
  else
    m ++ [(key, b)]

/-- `RestManager.cleanupRateLimits`: delete every entry whose reset time has
passed (`now > reset`). -/
def cleanupRateLimits (now : Nat) (m : List (String × Bucket)) :
    List (String × Bucket) :=
  m.filter fun kv => !(now > kv.2.reset)

/-- `RestManager.updateRateLimits`: when both the remaining and reset headers
parse, overwrite the bucket for the route key (reset seconds converted to
milliseconds) and prune expired entries; otherwise do nothing. -/
def updateRateLimits (s : RMState) (endpoint method : String)
    (h : Option RLHeader) : RMState :=
  match h with
  | none => s
  | some hd =>
    let key := getRouteKey endpoint method
    let m := setBucket s.rateLimits key
      { remaining := hd.remaining, reset := hd.resetSec * 1000,
        limit := hd.limit, updatedAt := s.now }
    { s with rateLimits := cleanupRateLimits s.now m }

/-- Replay one `makeRequest` trace event against the manager state: sleeps
advance the clock, `setGlobal` writes `globalRateLimit` relative to the
current clock, `updRL` runs `updateRateLimits`. -/
def applyEv (s : RMState) : Ev → RMState
  | Ev.sleep ms => { s with now := s.now + ms }
  | Ev.setGlobal ra => { s with globalRateLimit := some (s.now + ra) }
  | Ev.updRL endpoint method h => updateRateLimits s endpoint method h
  | _ => s

/-- Step 1 of the `processQueue` loop body: if a global rate limit is set and
unexpired, wait it out and clear it; a stale entry (reset already passed) is
left in place untouched, exactly as in the source. -/
def globalGate (s : RMState) : RMState × List Ev :=
  match s.globalRateLimit with
  | some reset =>
    if s.now < reset then
      ({ s with now := reset, globalRateLimit := none },
        [Ev.globalWait (reset - s.now)])
    else (s, [])
  | none => (s, [])

/-- The per-route gate of the `processQueue` loop body: if the bucket for the
route key exists, has `remaining <= 0`, and its reset time is in the future,
wait until reset. -/
def routeGate (s : RMState) (key : String) : RMState × List Ev :=
  match lookupBucket s.rateLimits key with
  | some b =>
    if b.remaining ≤ 0 && decide (s.now < b.reset) then
      ({ s with now := b.reset }, [Ev.routeWait key (b.reset - s.now)])
    else (s, [])
  | none => (s, [])

/-- A queued request: endpoint, method (`options.method || "GET"` resolved),
and the outcome stream its `fetch` calls will observe. -/
structure QReq where
  endpoint : String
  method : String
  out : Nat → Outcome

/-- How the caller promise of `request()` is settled by the loop body:
`makeRequest` throwing rejects, any returned value (including `undefined`)
resolves. -/
inductive Completion where
  | resolved (v : MRResult)
  | rejected (e : MError)
deriving DecidableEq

/-- The `try { resolve(await this.makeRequest(...)) } catch { reject(e) }`
split of the loop body. -/
def settle (res : MRResult) : Completion :=
  match res with
  | MRResult.err e => Completion.rejected e
  | v => Completion.resolved v

/-- The `while (this.requestQueue.length > 0)` loop of
`RestManager.processQueue`, processing the queued requests in order.  `i`
numbers the requests for the trace.  On success a fixed 100 ms courtesy
sleep precedes the next iteration; when `makeRequest` throws, the catch
block rejects and the loop continues without that sleep. -/
def processQueue (i : Nat) (s : RMState) : List QReq → List Ev
  | [] => []
  | q :: rest =>
    let g := globalGate s
    let key := getRouteKey q.endpoint q.method
    let rg := routeGate g.1 key
    let mr := makeRequest q.endpoint q.method q.out
    let s1 := mr.2.foldl applyEv rg.1
    match mr.1 with
    | MRResult.err e =>
      g.2 ++ rg.2 ++ [Ev.start i] ++ mr.2 ++
        [Ev.finish i (MRResult.err e)] ++ processQueue (i + 1) s1 rest
    | v =>
      g.2 ++ rg.2 ++ [Ev.start i] ++ mr.2 ++
        [Ev.finish i v, Ev.sleep 100] ++
        processQueue (i + 1) { s1 with now := s1.now + 100 } rest

/-- Projection of a trace to its `start`/`finish` skeleton: `(true, i)` for
`start i`, `(false, i)` for `finish i`. -/
def sfProj : List Ev → List (Bool × Nat)
  | [] => []
  | Ev.start i :: t => (true, i) :: sfProj t
  | Ev.finish i _ :: t => (false, i) :: sfProj t
  | _ :: t => sfProj t

/-- The strictly serialized FIFO skeleton: start `i`, finish `i`, start
`i+1`, finish `i+1`, ... for `n` requests. -/
def fifoShape (i : Nat) : Nat → List (Bool × Nat)
  | 0 => []
  | n + 1 => (true, i) :: (false, i) :: fifoShape (i + 1) n

/-- A rate-limited response with a 2 second `retry-after`, route-scoped,
carrying no rate-limit headers. -/
def r429 : HResp :=
  { status := 429, retryAfterSec := 2, isGlobal := false,
    jsonBody := none, rl := none }

/-- A 404 response whose body parses to
`{"message":"Unknown Channel"}`. -/
def r404 : HResp :=
  { status := 404, retryAfterSec := 0, isGlobal := false,
    jsonBody := some { message := some "Unknown Channel" }, rl := none }

/-- A server that answers every call with the 429 response. -/
def all429 : Nat → Outcome := fun _ => Outcome.resp r429

/-- A server that answers every call with the 404 response. -/
def all404 : Nat → Outcome := fun _ => Outcome.resp r404

/-- A fresh `RestManager` state: empty bucket map, no global limit. -/
def freshRM : RMState :=
  { rateLimits := [], globalRateLimit := none, now := 0 }

end Rest

namespace WS

/-- A payload passed to `DiscordWebSocket.send`: the heartbeat frame
`{ op: 1, d: this.sequence }` or the identify frame built by
`sendIdentify` (whose `d` carries only constants and the token/presence,
irrelevant to the claims). -/
inductive Payload where
  | heartbeat (seq : Option Int)
  | identify
deriving DecidableEq

/-- Observable actions of the websocket layer: client events emitted via
`this.client.emit` / `this.emit`, a frame written to the socket, and the
`setTimeout(() => this.connect(), delay)` call scheduled by `reconnect`. -/
inductive WEv where
  | connected
  | disconnected (code : Nat)
  | readyEv
  | dispatchEv
  | errorEv (msg : String)
  | maxReconnects
  | sent (p : Payload)
  | scheduleConnect (delayMs : Nat)
deriving DecidableEq

/-- The mutable fields of a `DiscordWebSocket` the handlers touch.
`wsPresent`/`wsReadyState` model `this.ws` and its `readyState`
(1 = OPEN, 3 = CLOSED). -/
structure WSState where
  wsPresent : Bool
  wsReadyState : Nat
  heartbeatOn : Bool
  sequence : Option Int
  sessionId : Option String
  ready : Bool
  reconnectAttempts : Nat
deriving DecidableEq

/-- `maxReconnectAttempts`. -/
def maxReconnectAttempts : Nat := 5

/-- An inbound gateway frame after `JSON.parse`: `s` is `none` when the field
is absent or null; `dHeartbeatInterval` and `dSessionId` are the `d`
sub-fields read by the Hello and READY handlers. -/
structure Frame where
  op : Nat
  s : Option Int
  t : Option String
  dHeartbeatInterval : Nat
  dSessionId : String
deriving DecidableEq

/-- `DiscordWebSocket.send`: write the payload only when a socket exists and
its `readyState` is OPEN; otherwise fall through silently. -/
def send (st : WSState) (p : Payload) : WSState × List WEv :=
  if st.wsPresent && st.wsReadyState = 1 then (st, [WEv.sent p])
  else (st, [])

/-- `DiscordWebSocket.sendIdentify` (op 2). -/
def sendIdentify (st : WSState) : WSState × List WEv :=
  send st Payload.identify

/-- One firing of the `setInterval` callback installed by `startHeartbeat`:
guarded on an open socket, it sends `{ op: 1, d: this.sequence }`. -/
def heartbeatTick (st : WSState) : WSState × List WEv :=
  if st.wsPresent && st.wsReadyState = 1 then
    send st (Payload.heartbeat st.sequence)
  else (st, [])

/-- `DiscordWebSocket.handleDispatch`.  The READY case records the session id
and marks ready; it does not touch `reconnectAttempts`.  The
MESSAGE_CREATE / GUILD_CREATE / CHANNEL_CREATE cases build domain objects on
`this.client` (external to this state) and the default case re-emits the raw
frame; all are summarized as a dispatch emission. -/
def handleDispatch (st : WSState) (f : Frame) : WSState × List WEv :=
  match f.t with
  | some "READY" =>
    ({ st with sessionId := some f.dSessionId, ready := true }, [WEv.readyEv])
  | _ => (st, [WEv.dispatchEv])

/-- `DiscordWebSocket.handleMessage`: unconditionally store `message.s`,
then branch on the op code: 10 (Hello) starts the heartbeat interval and
identifies, 11 (heartbeat ack) is a no-op, 0 dispatches, anything else is
logged and dropped. -/
def handleMessage (st : WSState) (f : Frame) : WSState × List WEv :=
  let st1 := { st with sequence := f.s }
  match f.op with
  | 10 =>
    let st2 := { st1 with heartbeatOn := true }
    sendIdentify st2
  | 11 => (st1, [])
  | 0 => handleDispatch st1 f
  | _ => (st1, [])

/-- `DiscordWebSocket.reconnect`: at the ceiling, emit the error and
`maxReconnects` events and stop; otherwise increment the counter and
schedule `connect()` after `min(1000 * 2 ^ attempts, 30000)` ms. -/
def reconnect (st : WSState) : WSState × List WEv :=
  if st.reconnectAttempts ≥ maxReconnectAttempts then
    (st, [WEv.errorEv "Max reconnect attempts reached", WEv.maxReconnects])
  else
    let st1 := { st with reconnectAttempts := st.reconnectAttempts + 1 }
    let delay := min (1000 * 2 ^ st1.reconnectAttempts) 30000
    (st1, [WEv.scheduleConnect delay])

/-- The `close` listener installed by `connect`: clear ready and the
heartbeat timer (the socket now reports CLOSED), emit `disconnected`, and
invoke `reconnect` unless the close code is the clean-shutdown sentinel
1000 — the code `disconnect()` closes with. -/
def handleClose (st : WSState) (code : Nat) : WSState × List WEv :=
  let st1 :=
    { st with ready := false, heartbeatOn := false, wsReadyState := 3 }
  if code ≠ 1000 then
    let r := reconnect st1
    (r.1, WEv.disconnected code :: r.2)
  else
    (st1, [WEv.disconnected code])

/-- Handle a list of inbound frames in arrival order, accumulating state. -/
def handleAll (st : WSState) : List Frame → WSState
  | [] => st
  | f :: fs => handleAll (handleMessage st f).1 fs

/-- The `s` field of the last frame of the list, or the given default when
the list is empty. -/
def lastSeq (d : Option Int) : List Frame → Option Int
  | [] => d
  | f :: fs => lastSeq f.s fs

/-- Iterated abnormal closes: the state after `k` consecutive close events
with the given code, starting from `st`. -/
def afterCloses (st : WSState) (code : Nat) : Nat → WSState
  | 0 => st
  | k + 1 => (handleClose (afterCloses st code k) code).1

/-- The delays of the `scheduleConnect` events in a trace. -/
def connectDelays (tr : List WEv) : List Nat :=
  tr.filterMap fun e => match e with
    | WEv.scheduleConnect d => some d
    | _ => none

/-- A fresh `DiscordWebSocket` right after the constructor, with an open
socket: `sequence` and `sessionId` null, counter zero, ready false. -/
def initOpen : WSState :=
  { wsPresent := true, wsReadyState := 1, heartbeatOn := false,
    sequence := none, sessionId := none, ready := false,
    reconnectAttempts := 0 }

/-- A dispatch frame carrying sequence number 5. -/
def seqFrame : Frame :=
  { op := 0, s := some 5, t := none, dHeartbeatInterval := 0,
    dSessionId := "" }

/-- A heartbeat-ack frame whose `s` field is null, as the server sends for
op 11. -/
def ackFrame : Frame :=
  { op := 11, s := none, t := none, dHeartbeatInterval := 0,
    dSessionId := "" }

/-- A READY dispatch frame. -/
def readyFrame : Frame :=
  { op := 0, s := some 1, t := some "READY", dHeartbeatInterval := 0,
    dSessionId := "sess" }

end WS

/-! ## Helper lemmas -/

namespace Rest

theorem sfProj_append (a b : List Ev) :
    sfProj (a ++ b) = sfProj a ++ sfProj b := by
  induction a with
  | nil => rfl
  | cons e t ih => cases e <;> simp [sfProj, ih]

theorem sfProj_globalGate (s : RMState) : sfProj (globalGate s).2 = [] := by
  unfold globalGate
  rcases s.globalRateLimit with _ | reset
  · rfl
  · by_cases h : s.now < reset <;> simp [h, sfProj]

theorem sfProj_routeGate (s : RMState) (key : String) :
    sfProj (routeGate s key).2 = [] := by
  unfold routeGate
  rcases lookupBucket s.rateLimits key with _ | b
  · rfl
  · dsimp only
    split
    · rfl
    · rfl

theorem sfProj_makeRequestGo (path method : String) (out : Nat → Outcome) :
    ∀ rem attempt, sfProj (makeRequestGo path method out attempt rem).2 = [] := by
  intro rem
  induction rem with
  | zero => intro attempt; rfl
  | succ n ih =>
    intro attempt
    unfold makeRequestGo
    cases hout : out attempt with
    | netErr e =>
      by_cases ha : attempt = maxRetries - 1 <;> simp [ha, sfProj, ih]
    | resp r =>
      by_cases h429 : r.status = 429
      · by_cases hg : r.isGlobal <;>
          simp [h429, hg, sfProj, sfProj_append, ih]
      · by_cases hok : statusOk r.status
        · by_cases h204 : r.status = 204
          · simp [h429, hok, h204, sfProj]
          · rcases hb : r.jsonBody with _ | b
            · by_cases ha : attempt = maxRetries - 1 <;>
                simp [h429, hok, h204, hb, ha, sfProj, ih]
            · simp [h429, hok, h204, hb, sfProj]
        · by_cases ha : attempt = maxRetries - 1 <;>
            simp [h429, hok, ha, sfProj, ih]

theorem sfProj_makeRequest (path method : String) (out : Nat → Outcome) :
    sfProj (makeRequest path method out).2 = [] :=
  sfProj_makeRequestGo path method out maxRetries 0

theorem countFetch_makeRequestGo (path method : String) (out : Nat → Outcome) :
    ∀ rem attempt, countFetch (makeRequestGo path method out attempt rem).2 ≤ rem := by
  intro rem
  induction rem with
  | zero => intro attempt; simp [makeRequestGo, countFetch]
  | succ n ih =>
    intro attempt
    have hrec := ih (attempt + 1)
    unfold makeRequestGo
    cases hout : out attempt with
    | netErr e =>
      by_cases ha : attempt = maxRetries - 1 <;>
        simp [ha, countFetch] <;> omega
    | resp r =>
      by_cases h429 : r.status = 429
      · by_cases hg : r.isGlobal <;>
          simp [h429, hg, countFetch] <;> omega
      · by_cases hok : statusOk r.status
        · by_cases h204 : r.status = 204
          · simp [h429, hok, h204, countFetch]
          · rcases hb : r.jsonBody with _ | b
            · by_cases ha : attempt = maxRetries - 1 <;>
                simp [h429, hok, h204, hb, ha, countFetch] <;> omega
            · simp [h429, hok, h204, hb, countFetch]
        · by_cases ha : attempt = maxRetries - 1 <;>
            simp [h429, hok, ha, countFetch] <;> omega

end Rest

namespace Rest

theorem firstIsDigit_append (seg rest : List Char) (h : seg ≠ []) :
    firstIsDigit (seg ++ rest) = firstIsDigit seg := by
  cases seg with
  | nil => exact absurd rfl h
  | cons c cs => rfl

theorem firstIsDigit_flat (segs : List String) :
    firstIsDigit (segs.flatMap fun s => '/' :: s.data) = false := by
  cases segs with
  | nil => rfl
  | cons s ss => rfl

theorem normGo_true_of_not_digit (rest : List Char)
    (h : firstIsDigit rest = false) : normGo true rest = normGo false rest := by
  cases rest with
  | nil => rfl
  | cons c cs =>
    simp only [firstIsDigit] at h
    simp [normGo, h]

theorem normGo_true_digits (ds rest : List Char) (h : ds.all Char.isDigit) :
    normGo true (ds ++ rest) = normGo true rest := by
  induction ds with
  | nil => rfl
  | cons d dt ih =>
    simp only [List.all_cons, Bool.and_eq_true] at h
    simp [normGo, h.1, ih h.2]

theorem normGo_false_copy (seg rest : List Char) (h : '/' ∉ seg) :
    normGo false (seg ++ rest) = seg ++ normGo false rest := by
  induction seg with
  | nil => rfl
  | cons c cs ih =>
    simp only [List.mem_cons, not_or] at h
    simp [normGo, Ne.symm h.1, ih h.2]

theorem normGo_false_slash (cs : List Char) :
    normGo false ('/' :: cs) =
      if firstIsDigit cs then '/' :: lb :: 'i' :: 'd' :: rb :: normGo true cs
      else '/' :: normGo false cs := by
  by_cases h : firstIsDigit cs = true <;> simp [normGo, h]

theorem flatSegs_cons (f : String → List Char) (seg : String)
    (rest : List String) :
    ((seg :: rest).flatMap fun s => '/' :: f s) =
      '/' :: (f seg ++ rest.flatMap fun s => '/' :: f s) := by
  simp

theorem normGo_path (segs : List String)
    (hne : ∀ s ∈ segs, s.data ≠ [])
    (hns : ∀ s ∈ segs, '/' ∉ s.data)
    (hshape : ∀ s ∈ segs,
      s.data.all Char.isDigit = true ∨ firstIsDigit s.data = false) :
    normGo false (segs.flatMap fun s => '/' :: s.data) =
      segs.flatMap fun s => '/' :: specNormalizeSeg s.data := by
  induction segs with
  | nil => rfl
  | cons seg rest ih =>
    have hseg := hne seg (by simp)
    have hrest := ih (fun s hs => hne s (by simp [hs]))
      (fun s hs => hns s (by simp [hs])) (fun s hs => hshape s (by simp [hs]))
    rw [flatSegs_cons String.data, flatSegs_cons (fun s => specNormalizeSeg s.data),
      normGo_false_slash]
    rcases hshape seg (by simp) with hd | hd
    · -- pure-numeric segment: the match fires and swallows the digit run
      have hfd : firstIsDigit seg.data = true := by
        cases hcs : seg.data with
        | nil => exact absurd hcs hseg
        | cons c cs =>
          rw [hcs] at hd
          simp only [List.all_cons, Bool.and_eq_true] at hd
          simp [firstIsDigit, hd.1]
      have hX : firstIsDigit
          (seg.data ++ rest.flatMap fun s => '/' :: s.data) = true := by
        rw [firstIsDigit_append _ _ hseg]; exact hfd
      rw [hX, if_pos rfl, normGo_true_digits _ _ hd,
        normGo_true_of_not_digit _ (firstIsDigit_flat rest), hrest]
      have hspec : specNormalizeSeg seg.data = [lb, 'i', 'd', rb] := by
        simp [specNormalizeSeg, hseg, hd]
      simp [hspec]
    · -- segment starting with a non-digit: copied verbatim
      have hall : (decide (seg.data ≠ []) && seg.data.all Char.isDigit) = false := by
        cases hcs : seg.data with
        | nil => exact absurd hcs hseg
        | cons c cs =>
          rw [hcs] at hd
          simp only [firstIsDigit] at hd
          simp [hd]
      have hX : firstIsDigit
          (seg.data ++ rest.flatMap fun s => '/' :: s.data) = false := by
        rw [firstIsDigit_append _ _ hseg]; exact hd
      rw [hX, if_neg (by simp), normGo_false_copy _ _ (hns seg (by simp)), hrest]
      have hspec : specNormalizeSeg seg.data = seg.data := by
        simp only [specNormalizeSeg, hall, Bool.false_eq_true, if_false, reduceIte]
      simp [hspec]

end Rest

namespace WS

theorem handleMessage_sequence (st : WSState) (f : Frame) :
    (handleMessage st f).1.sequence = f.s := by
  unfold handleMessage sendIdentify send handleDispatch
  split
  · dsimp only
    split <;> rfl
  · rfl
  · dsimp only
    split <;> rfl
  · rfl

theorem handleAll_sequence : ∀ (frames : List Frame) (st : WSState),
    (handleAll st frames).sequence = lastSeq st.sequence frames := by
  intro frames
  induction frames with
  | nil => intro st; rfl
  | cons f fs ih =>
    intro st
    show (handleAll (handleMessage st f).1 fs).sequence = lastSeq f.s fs
    rw [ih, handleMessage_sequence]

end WS

/-! ## Claims -/

/-- Claim C1: for every sequence of requests submitted via `request()`, the
scheduler executes them strictly in submission (FIFO) order, and at most one
outbound HTTP call is in flight at any time: the `start`/`finish` skeleton of
the `processQueue` trace is exactly start 0, finish 0, start 1, finish 1, …,
so a second execution never begins before the prior request is settled. -/
theorem C1_fifo_single_flight (reqs : List Rest.QReq) :
    ∀ (i : Nat) (s : Rest.RMState),
    Rest.sfProj (Rest.processQueue i s reqs) = Rest.fifoShape i reqs.length := by
  induction reqs with
  | nil => intro i s; rfl
  | cons q rest ih =>
    intro i s
    unfold Rest.processQueue
    rcases hmr : (Rest.makeRequest q.endpoint q.method q.out).1 with b | e | _ <;>
      simp [hmr, Rest.sfProj_append, Rest.sfProj_globalGate, Rest.sfProj_routeGate,
        Rest.sfProj_makeRequest, Rest.sfProj, Rest.fifoShape, ih]

theorem mrgo_all429_undef (path method : String) (out : Nat → Rest.Outcome) :
    ∀ rem attempt,
    (∀ k, k < attempt + rem →
      ∃ r, out k = Rest.Outcome.resp r ∧ r.status = 429) →
    (Rest.makeRequestGo path method out attempt rem).1 = Rest.MRResult.undef := by
  intro rem
  induction rem with
  | zero => intro attempt h; rfl
  | succ n ih =>
    intro attempt h
    obtain ⟨r, hout, h429⟩ := h attempt (by omega)
    unfold Rest.makeRequestGo
    rw [hout]
    simp only [h429, reduceIte]
    exact ih (attempt + 1) (fun k hk => h k (by omega))

/-- Claim C2, counterexample: with a server that answers every call 429, the
loop performs exactly `maxRetries = 3` fetches and then exits — each
429-driven retry consumed one of the 3 attempts (`attempt++` in the 429
branch), so the number of 429-driven retries for one call is bounded by 3,
not unbounded as claimed. -/
theorem C2_counterexample :
    Rest.countFetch (Rest.makeRequest "/x" "GET" Rest.all429).2 =
      Rest.maxRetries ∧
    (Rest.makeRequest "/x" "GET" Rest.all429).1 = Rest.MRResult.undef := by
  constructor <;> decide

/-- Claim C2 (amended): a 429 response makes the loop wait the
server-provided retry-after duration and retry, but the retry consumes one
of the 3 attempts (the loop continues at `attempt + 1`), so at most 3
fetches ever occur for one call. -/
theorem C2_amended_thm (path method : String) (out : Nat → Rest.Outcome)
    (a : Nat) (r : Rest.HResp) (ha : a < Rest.maxRetries)
    (hout : out a = Rest.Outcome.resp r) (h429 : r.status = 429)
    (hg : r.isGlobal = false) :
    Rest.makeRequestFrom path method out a =
      ((Rest.makeRequestFrom path method out (a + 1)).1,
        Rest.Ev.fetch a :: Rest.Ev.updRL path method r.rl ::
          Rest.Ev.sleep (r.retryAfterSec * 1000) ::
          (Rest.makeRequestFrom path method out (a + 1)).2) ∧
    Rest.countFetch (Rest.makeRequest path method out).2 ≤ Rest.maxRetries := by
  constructor
  · have hrem : Rest.maxRetries - a = (Rest.maxRetries - (a + 1)) + 1 := by
      simp only [Rest.maxRetries] at ha ⊢
      omega
    show Rest.makeRequestGo path method out a (Rest.maxRetries - a) = _
    rw [hrem, Rest.makeRequestGo.eq_2, hout]
    simp [h429, hg]
    exact ⟨rfl, rfl⟩
  · exact Rest.countFetch_makeRequestGo path method out Rest.maxRetries 0

/-- Claim C2, witness for the amended theorem at attempt 0 of an all-429
run. -/
theorem C2_amended_witness :
    Rest.makeRequestFrom "/x" "GET" Rest.all429 0 =
      ((Rest.makeRequestFrom "/x" "GET" Rest.all429 1).1,
        Rest.Ev.fetch 0 :: Rest.Ev.updRL "/x" "GET" Rest.r429.rl ::
          Rest.Ev.sleep (Rest.r429.retryAfterSec * 1000) ::
          (Rest.makeRequestFrom "/x" "GET" Rest.all429 1).2) ∧
    Rest.countFetch (Rest.makeRequest "/x" "GET" Rest.all429).2 ≤
      Rest.maxRetries :=
  C2_amended_thm "/x" "GET" Rest.all429 0 Rest.r429 (by decide) rfl rfl rfl

/-- Claim C3, counterexample: a 404 response with body message
"Unknown Channel" is retried — the `DiscordAPIError` thrown in the try
block is caught by the same try's catch block and retried with backoff
sleeps of 1000 ms and 2000 ms; with a server answering 404 every time,
three fetches occur (the claim requires exactly one), and only the third
attempt rejects with the typed error. -/
theorem C3_counterexample :
    Rest.countFetch (Rest.makeRequest "/channels/1" "GET" Rest.all404).2 = 3 ∧
    Rest.countFetch (Rest.makeRequest "/channels/1" "GET" Rest.all404).2 ≠ 1 ∧
    Rest.Ev.sleep 1000 ∈ (Rest.makeRequest "/channels/1" "GET" Rest.all404).2 ∧
    Rest.Ev.sleep 2000 ∈ (Rest.makeRequest "/channels/1" "GET" Rest.all404).2 ∧
    (Rest.makeRequest "/channels/1" "GET" Rest.all404).1 =
      Rest.MRResult.err
        (Rest.MError.api "Unknown Channel" 404 "/channels/1") := by
  refine ⟨by decide, by decide, by decide, by decide, by decide⟩

/-- Claim C3 (amended): a non-success, non-429 response raises a typed API
error carrying the extracted message, the status code and the requested
path, but the error is caught by the catch block and retried with
exponential backoff (`2 ^ attempt` seconds) like a transient failure; the
caller is rejected with the typed error only when such a response occurs on
the final (third) attempt. -/
theorem C3_amended_thm (path method : String) (out : Nat → Rest.Outcome)
    (a : Nat) (r : Rest.HResp) (ha : a < Rest.maxRetries)
    (hout : out a = Rest.Outcome.resp r)
    (hnok : Rest.statusOk r.status = false) (hn429 : r.status ≠ 429) :
    (a = Rest.maxRetries - 1 →
      Rest.makeRequestFrom path method out a =
        (Rest.MRResult.err
            (Rest.MError.api (Rest.apiMessage r) r.status path),
          [Rest.Ev.fetch a, Rest.Ev.updRL path method r.rl])) ∧
    (a ≠ Rest.maxRetries - 1 →
      Rest.makeRequestFrom path method out a =
        ((Rest.makeRequestFrom path method out (a + 1)).1,
          Rest.Ev.fetch a :: Rest.Ev.updRL path method r.rl ::
            Rest.Ev.sleep (2 ^ a * 1000) ::
            (Rest.makeRequestFrom path method out (a + 1)).2)) := by
  have hrem : Rest.maxRetries - a = (Rest.maxRetries - (a + 1)) + 1 := by
    simp only [Rest.maxRetries] at ha ⊢
    omega
  constructor <;>
    (intro hlast
     show Rest.makeRequestGo path method out a (Rest.maxRetries - a) = _
     rw [hrem, Rest.makeRequestGo.eq_2, hout]
     simp [hn429, hnok, hlast]
     try exact ⟨rfl, rfl⟩)

/-- Claim C3, witness for the amended theorem: the final attempt of an
all-404 run rejects with the typed error, and attempt 0 retries. -/
theorem C3_amended_witness :
    (2 = Rest.maxRetries - 1 →
      Rest.makeRequestFrom "/channels/1" "GET" Rest.all404 2 =
        (Rest.MRResult.err
            (Rest.MError.api (Rest.apiMessage Rest.r404) Rest.r404.status
              "/channels/1"),
          [Rest.Ev.fetch 2, Rest.Ev.updRL "/channels/1" "GET" Rest.r404.rl])) ∧
    (2 ≠ Rest.maxRetries - 1 →
      Rest.makeRequestFrom "/channels/1" "GET" Rest.all404 2 =
        ((Rest.makeRequestFrom "/channels/1" "GET" Rest.all404 3).1,
          Rest.Ev.fetch 2 :: Rest.Ev.updRL "/channels/1" "GET" Rest.r404.rl ::
            Rest.Ev.sleep (2 ^ 2 * 1000) ::
            (Rest.makeRequestFrom "/channels/1" "GET" Rest.all404 3).2)) :=
  C3_amended_thm "/channels/1" "GET" Rest.all404 2 Rest.r404 (by decide)
    rfl (by decide) (by decide)

/-- Claim C9: when all 3 attempts are consumed by 429 responses, the retry
loop exits without throwing and without returning a value, so `makeRequest`
resolves with `undefined` and the caller promise from `request()` is
resolved (not rejected) with it. -/
theorem C9_thm (path method : String) (out : Nat → Rest.Outcome)
    (h : ∀ k, k < Rest.maxRetries →
      ∃ r, out k = Rest.Outcome.resp r ∧ r.status = 429) :
    (Rest.makeRequest path method out).1 = Rest.MRResult.undef ∧
    Rest.settle (Rest.makeRequest path method out).1 =
      Rest.Completion.resolved Rest.MRResult.undef := by
  have h0 : (Rest.makeRequest path method out).1 = Rest.MRResult.undef :=
    mrgo_all429_undef path method out Rest.maxRetries 0
      (fun k hk => h k (by omega))
  refine ⟨h0, ?_⟩
  rw [h0]
  rfl

/-- Claim C9, witness: the all-429 run resolves with `undefined`. -/
theorem C9_witness :
    (Rest.makeRequest "/x" "GET" Rest.all429).1 = Rest.MRResult.undef ∧
    Rest.settle (Rest.makeRequest "/x" "GET" Rest.all429).1 =
      Rest.Completion.resolved Rest.MRResult.undef :=
  C9_thm "/x" "GET" Rest.all429 (fun k _ => ⟨Rest.r429, rfl, rfl⟩)

/-- Claim C4, counterexample: from a state with 2 prior reconnect attempts,
handling the READY dispatch completes the handshake (`ready` becomes true)
but leaves the reconnect attempt counter at 2 — the READY handler never
resets it to 0, contradicting the claimed reset. -/
theorem C4_counterexample :
    (WS.handleMessage { WS.initOpen with reconnectAttempts := 2 }
        WS.readyFrame).1.reconnectAttempts = 2 ∧
    (WS.handleMessage { WS.initOpen with reconnectAttempts := 2 }
        WS.readyFrame).1.ready = true ∧
    (WS.handleMessage { WS.initOpen with reconnectAttempts := 2 }
        WS.readyFrame).1.reconnectAttempts ≠ 0 := by
  refine ⟨by decide, by decide, by decide⟩

/-- Claim C4 (amended): the reconnect attempt counter is incremented on
every abnormal disconnect while below the ceiling, and is never reset: the
READY handler leaves it unchanged (while completing the handshake), so
after a successful handshake a later abnormal disconnect resumes from the
accumulated count; a clean close also leaves it unchanged. -/
theorem C4_amended_thm (st : WS.WSState) (f : WS.Frame) (hop : f.op = 0)
    (ht : f.t = some "READY") (code : Nat) (hc : code ≠ 1000)
    (hlt : st.reconnectAttempts < WS.maxReconnectAttempts) :
    (WS.handleMessage st f).1.reconnectAttempts = st.reconnectAttempts ∧
    (WS.handleMessage st f).1.ready = true ∧
    (WS.handleClose st code).1.reconnectAttempts = st.reconnectAttempts + 1 ∧
    (WS.handleClose st 1000).1.reconnectAttempts = st.reconnectAttempts := by
  have hge : ¬ st.reconnectAttempts ≥ WS.maxReconnectAttempts := by omega
  refine ⟨?_, ?_, ?_, ?_⟩
  · simp [WS.handleMessage, hop, WS.handleDispatch, ht]
  · simp [WS.handleMessage, hop, WS.handleDispatch, ht]
  · simp [WS.handleClose, hc, WS.reconnect, hge]
  · simp [WS.handleClose]

/-- Claim C4, witness for the amended theorem: one prior attempt, a READY
dispatch, then an abnormal close with code 1006. -/
theorem C4_amended_witness :
    (WS.handleMessage { WS.initOpen with reconnectAttempts := 1 }
        WS.readyFrame).1.reconnectAttempts =
      ({ WS.initOpen with reconnectAttempts := 1 } : WS.WSState).reconnectAttempts ∧
    (WS.handleMessage { WS.initOpen with reconnectAttempts := 1 }
        WS.readyFrame).1.ready = true ∧
    (WS.handleClose { WS.initOpen with reconnectAttempts := 1 }
        1006).1.reconnectAttempts =
      ({ WS.initOpen with reconnectAttempts := 1 } : WS.WSState).reconnectAttempts + 1 ∧
    (WS.handleClose { WS.initOpen with reconnectAttempts := 1 }
        1000).1.reconnectAttempts =
      ({ WS.initOpen with reconnectAttempts := 1 } : WS.WSState).reconnectAttempts :=
  C4_amended_thm { WS.initOpen with reconnectAttempts := 1 } WS.readyFrame
    rfl rfl 1006 (by decide) (by decide)

/-- Claim C5: starting from attempt count 0, the n-th consecutive abnormal
close (n = 1..5) schedules the reconnect after exactly
`min(1000 * 2 ^ n, 30000)` ms; once the counter has reached the ceiling of
5, the next abnormal close emits the reconnect-exhausted event and
schedules no further `connect()`. -/
theorem C5_thm (n : Nat) (h1 : 1 ≤ n) (h5 : n ≤ 5) :
    WS.connectDelays
        (WS.handleClose (WS.afterCloses WS.initOpen 1006 (n - 1)) 1006).2 =
      [min (1000 * 2 ^ n) 30000] ∧
    WS.connectDelays
        (WS.handleClose (WS.afterCloses WS.initOpen 1006 5) 1006).2 = [] ∧
    WS.WEv.maxReconnects ∈
      (WS.handleClose (WS.afterCloses WS.initOpen 1006 5) 1006).2 := by
  interval_cases n <;> exact ⟨by decide, by decide, by decide⟩

/-- Claim C5, witness at the fifth close. -/
theorem C5_witness :
    WS.connectDelays
        (WS.handleClose (WS.afterCloses WS.initOpen 1006 (5 - 1)) 1006).2 =
      [min (1000 * 2 ^ 5) 30000] ∧
    WS.connectDelays
        (WS.handleClose (WS.afterCloses WS.initOpen 1006 5) 1006).2 = [] ∧
    WS.WEv.maxReconnects ∈
      (WS.handleClose (WS.afterCloses WS.initOpen 1006 5) 1006).2 :=
  C5_thm 5 (by decide) (by decide)

/-- Claim C6: a close with the clean-shutdown code 1000 (the code
`disconnect()` closes with) never schedules a reconnect and leaves the
attempt counter untouched, whatever its value; a close with any other code
while attempts remain below the ceiling schedules exactly one reconnect,
with the backoff delay of the incremented counter. -/
theorem C6_thm (st : WS.WSState) (code : Nat) (hcode : code ≠ 1000)
    (hrem : st.reconnectAttempts < WS.maxReconnectAttempts) :
    WS.connectDelays (WS.handleClose st 1000).2 = [] ∧
    (WS.handleClose st 1000).1.reconnectAttempts = st.reconnectAttempts ∧
    WS.connectDelays (WS.handleClose st code).2 =
      [min (1000 * 2 ^ (st.reconnectAttempts + 1)) 30000] := by
  have hge : ¬ st.reconnectAttempts ≥ WS.maxReconnectAttempts := by omega
  refine ⟨?_, ?_, ?_⟩ <;>
    simp [WS.handleClose, WS.reconnect, WS.connectDelays, hcode, hge]

/-- Claim C6, witness: a clean close at attempt count 4 does not reconnect,
an abnormal close at count 0 does. -/
theorem C6_witness :
    (WS.connectDelays
        (WS.handleClose { WS.initOpen with reconnectAttempts := 4 } 1000).2 = [] ∧
      (WS.handleClose { WS.initOpen with reconnectAttempts := 4 }
          1000).1.reconnectAttempts =
        ({ WS.initOpen with reconnectAttempts := 4 } : WS.WSState).reconnectAttempts ∧
      WS.connectDelays
          (WS.handleClose { WS.initOpen with reconnectAttempts := 4 } 1006).2 =
        [min (1000 * 2 ^
          (({ WS.initOpen with reconnectAttempts := 4 } : WS.WSState).reconnectAttempts
            + 1)) 30000]) :=
  C6_thm { WS.initOpen with reconnectAttempts := 4 } 1006 (by decide) (by decide)

/-- Claim C7, counterexample: after a dispatch frame carrying sequence 5
followed by a heartbeat-ack frame with no sequence field, the stored
sequence is null — the unconditional write `this.sequence = message.s`
loses the previously seen value — and the next heartbeat carries null
rather than 5. -/
theorem C7_counterexample :
    (WS.handleAll WS.initOpen [WS.seqFrame, WS.ackFrame]).sequence = none ∧
    (WS.handleAll WS.initOpen [WS.seqFrame, WS.ackFrame]).sequence ≠ some 5 ∧
    (WS.heartbeatTick (WS.handleAll WS.initOpen [WS.seqFrame, WS.ackFrame])).2 =
      [WS.WEv.sent (WS.Payload.heartbeat none)] := by
  refine ⟨by decide, by decide, by decide⟩

/-- Claim C7 (amended): after handling any finite sequence of inbound
frames, the stored sequence equals the `s` field of the most recently
handled frame — including when that field is absent, in which case the
previous value is overwritten with null — and the next heartbeat sent on an
open socket carries exactly that stored value. -/
theorem C7_amended_thm (st : WS.WSState) (frames : List WS.Frame)
    (hp : (WS.handleAll st frames).wsPresent = true)
    (hr : (WS.handleAll st frames).wsReadyState = 1) :
    (WS.handleAll st frames).sequence = WS.lastSeq st.sequence frames ∧
    (WS.heartbeatTick (WS.handleAll st frames)).2 =
      [WS.WEv.sent (WS.Payload.heartbeat (WS.lastSeq st.sequence frames))] := by
  have hs := WS.handleAll_sequence frames st
  refine ⟨hs, ?_⟩
  simp [WS.heartbeatTick, WS.send, hp, hr, hs]

/-- Claim C7, witness on a single dispatch frame. -/
theorem C7_amended_witness :
    (WS.handleAll WS.initOpen [WS.seqFrame]).sequence =
      WS.lastSeq WS.initOpen.sequence [WS.seqFrame] ∧
    (WS.heartbeatTick (WS.handleAll WS.initOpen [WS.seqFrame])).2 =
      [WS.WEv.sent
        (WS.Payload.heartbeat (WS.lastSeq WS.initOpen.sequence [WS.seqFrame]))] :=
  C7_amended_thm WS.initOpen [WS.seqFrame] (by decide) (by decide)

/-- Claim C8, counterexample: the endpoint `/channels/123abc` has no pure
numeric segment, so the claim requires the key `GET:/channels/123abc`; the
regex `\/\d+` nevertheless replaces the digit prefix of the segment,
producing `GET:/channels/{id}abc`. -/
theorem C8_counterexample :
    Rest.getRouteKey "/channels/123abc" "get" = "GET:/channels/\x7bid\x7dabc" ∧
    Rest.specRouteKey "/channels/123abc" "get" = "GET:/channels/123abc" ∧
    Rest.getRouteKey "/channels/123abc" "get" ≠
      Rest.specRouteKey "/channels/123abc" "get" := by
  refine ⟨by decide, by decide, by decide⟩

/-- Claim C8 (amended): the route key is the uppercased method joined with
the endpoint in which every maximal digit run immediately following a `/`
is replaced by the placeholder.  On paths all of whose segments are
nonempty, slash-free, and either pure-numeric or starting with a non-digit,
this coincides with the spec wording: pure-numeric segments are replaced
and all other segments are left unchanged. -/
theorem C8_amended_thm (method : String) (segs : List String)
    (hne : ∀ s ∈ segs, s.data ≠ [])
    (hns : ∀ s ∈ segs, '/' ∉ s.data)
    (hshape : ∀ s ∈ segs,
      s.data.all Char.isDigit = true ∨ Rest.firstIsDigit s.data = false) :
    Rest.getRouteKey (Rest.pathOf segs) method =
      String.mk (Rest.upperChars method.data ++ ':' ::
        (segs.flatMap fun s => '/' :: Rest.specNormalizeSeg s.data)) := by
  show String.mk (Rest.upperChars method.data ++ ':' ::
      Rest.normGo false (segs.flatMap fun s => '/' :: s.data)) = _
  rw [Rest.normGo_path segs hne hns hshape]

/-- Claim C8, witness on `/channels/123` with method `get`. -/
theorem C8_amended_witness :
    Rest.getRouteKey (Rest.pathOf ["channels", "123"]) "get" =
      String.mk (Rest.upperChars "get".data ++ ':' ::
        (["channels", "123"].flatMap
          fun s => '/' :: Rest.specNormalizeSeg s.data)) :=
  C8_amended_thm "get" ["channels", "123"] (by decide) (by decide) (by decide)

/-- Claim C10: calling `send(payload)` while the socket is absent or not in
the OPEN state returns silently — no error, nothing queued, no event, and
the state entirely unchanged; the payload is discarded. -/
theorem C10_send_noop (st : WS.WSState) (p : WS.Payload)
    (h : ¬ (st.wsPresent = true ∧ st.wsReadyState = 1)) :
    WS.send st p = (st, []) := by
  have hc : ¬ ((st.wsPresent && decide (st.wsReadyState = 1)) = true) := by
    simp only [Bool.and_eq_true, decide_eq_true_eq]
    exact h
  unfold WS.send
  rw [if_neg hc]

/-- Claim C10, witness: no socket present, identify payload. -/
theorem C10_send_noop_witness :
    WS.send { WS.initOpen with wsPresent := false } WS.Payload.identify =
      ({ WS.initOpen with wsPresent := false }, []) :=
  C10_send_noop { WS.initOpen with wsPresent := false } WS.Payload.identify
    (by decide)
